import Mathlib

/-!
Verification of the input-to-HID translation engine of `multi_device_proxy.py`
(repository arimakouyou/kiri).  The Python classes `MouseProxy`, `KeyboardProxy`
and the supervisor functions `reap_dead_tasks` / `manage_device_connections`
are shallowly embedded as pure Lean functions: stateful methods become
functions from a state structure to a new state, reports written through the
HID gadget become explicit values, and wall-clock times (`time.time()`,
`time.sleep`) become rational-number parameters.
-/

namespace MultiDeviceProxy

/-! ## Shared helpers: association lists modelling Python `dict` -/

/-- Python `d[k] = v`: the latest binding wins.  We keep at most one binding
per key, mirroring dict semantics. -/
def setA {β : Type} (l : List (Nat × β)) (k : Nat) (v : β) : List (Nat × β) :=
  (k, v) :: l.filter (fun p => p.1 ≠ k)

/-- Python `d.get(k, default)`. -/
def getA {β : Type} (l : List (Nat × β)) (k : Nat) (d : β) : β :=
  (List.lookup k l).getD d

/-! ## Keyboard translator (`KeyboardProxy`) -/

namespace KeyboardProxy

/-- `self.modifiers_map` from `KeyboardProxy.__init__`: bit position of each
modifier key in the modifier mask. -/
def modifiers_map : List (String × Nat) :=
  [("KEY_LEFTCTRL", 0), ("KEY_LEFTSHIFT", 1), ("KEY_LEFTALT", 2), ("KEY_LEFTMETA", 3),
   ("KEY_RIGHTCTRL", 4), ("KEY_RIGHTSHIFT", 5), ("KEY_RIGHTALT", 6), ("KEY_RIGHTMETA", 7)]

/-- `self.shift_bit = 0b00100010`: mask of the two Shift bits. -/
def shift_bit : Nat := 0x22

/-- Modelled from the spec: the US-layout HID usage table provided by the
module `hid_keys` (imported by the source as `hid_key_map`), which is not
among the provided source files.  Values follow the standard USB HID usage
table the spec references: KEY_A = 0x04 (scenario S3), KEY_2 = 0x1f (the
`@` macro), KEY_DOT = 0x37, KEY_MINUS = 0x2d, and the JIS target keys
KEY_RO = 0x87 and KEY_YEN = 0x89 that the remap rules produce. -/
def hid_key_map : List (String × Nat) :=
  [("KEY_A", 4), ("KEY_B", 5), ("KEY_C", 6), ("KEY_D", 7), ("KEY_E", 8),
   ("KEY_F", 9), ("KEY_G", 10), ("KEY_H", 11), ("KEY_I", 12), ("KEY_J", 13),
   ("KEY_K", 14), ("KEY_L", 15), ("KEY_M", 16), ("KEY_N", 17), ("KEY_O", 18),
   ("KEY_P", 19), ("KEY_Q", 20), ("KEY_R", 21), ("KEY_S", 22), ("KEY_T", 23),
   ("KEY_U", 24), ("KEY_V", 25), ("KEY_W", 26), ("KEY_X", 27), ("KEY_Y", 28),
   ("KEY_Z", 29),
   ("KEY_1", 30), ("KEY_2", 31), ("KEY_3", 32), ("KEY_4", 33), ("KEY_5", 34),
   ("KEY_6", 35), ("KEY_7", 36), ("KEY_8", 37), ("KEY_9", 38), ("KEY_0", 39),
   ("KEY_ENTER", 40), ("KEY_ESC", 41), ("KEY_BACKSPACE", 42), ("KEY_TAB", 43),
   ("KEY_SPACE", 44), ("KEY_MINUS", 45), ("KEY_EQUAL", 46),
   ("KEY_LEFTBRACE", 47), ("KEY_RIGHTBRACE", 48), ("KEY_BACKSLASH", 49),
   ("KEY_SEMICOLON", 51), ("KEY_APOSTROPHE", 52), ("KEY_GRAVE", 53),
   ("KEY_COMMA", 54), ("KEY_DOT", 55), ("KEY_SLASH", 56), ("KEY_CAPSLOCK", 57),
   ("KEY_RO", 135), ("KEY_YEN", 137)]

/-- Python `keycode in hid_keys`. -/
def hidMem (k : String) : Bool := (List.lookup k hid_key_map).isSome

/-- Python `hid_keys.get(keycode, 0)`. -/
def hidGet (k : String) : Nat := (List.lookup k hid_key_map).getD 0

/-- The mutable state of a `KeyboardProxy` that the translation logic reads
and writes: `self.modifier`, `self.pressed_keys` (a set, modelled as a
duplicate-free list in iteration order), and the two transient flags. -/
structure State where
  modifier : Nat
  pressed_keys : List String
  is_shift_up : Bool
  is_shift_down : Bool
deriving DecidableEq

/-- `KeyboardProxy.reset_state`. -/
def reset_state : State := ⟨0, [], false, false⟩

/-- One HID-side effect of the translator: a report written to the gadget
endpoint, or a `time.sleep` pause (seconds). -/
inductive Emission where
  | report (bytes : List Nat)
  | sleep (seconds : ℚ)
deriving DecidableEq

/-- The `elif` chain of `remap` that runs when a Shift bit is held
(`self.modifier & self.shift_bit` non-zero): the shift-set US→JIS rules,
three of which also set `self.is_shift_down`. -/
def shiftHeldRules (s : State) (keycode : String) : Nat × State :=
  match keycode with
  | "KEY_7" => (hidGet "KEY_6", s)
  | "KEY_8" => (hidGet "KEY_APOSTROPHE", s)
  | "KEY_9" => (hidGet "KEY_8", s)
  | "KEY_0" => (hidGet "KEY_9", s)
  | "KEY_EQUAL" => (hidGet "KEY_SEMICOLON", s)
  | "KEY_GRAVE" => (hidGet "KEY_EQUAL", s)
  | "KEY_MINUS" => (hidGet "KEY_RO", s)
  | "KEY_2" => (hidGet "KEY_LEFTBRACE", {s with is_shift_down := true})
  | "KEY_6" => (hidGet "KEY_EQUAL", {s with is_shift_down := true})
  | "KEY_BACKSLASH" => (hidGet "KEY_YEN", s)
  | "KEY_SEMICOLON" => (hidGet "KEY_APOSTROPHE", {s with is_shift_down := true})
  | "KEY_APOSTROPHE" => (hidGet "KEY_2", s)
  | _ => (hidGet keycode, s)

/-- The `if` chain of `remap` that runs when no Shift bit is held: three
rules set `self.is_shift_up`, one maps BACKSLASH to RO. -/
def shiftFreeRules (s : State) (keycode : String) : Nat × State :=
  match keycode with
  | "KEY_APOSTROPHE" => (hidGet "KEY_7", {s with is_shift_up := true})
  | "KEY_GRAVE" => (hidGet "KEY_LEFTBRACE", {s with is_shift_up := true})
  | "KEY_EQUAL" => (hidGet "KEY_MINUS", {s with is_shift_up := true})
  | "KEY_BACKSLASH" => (hidGet "KEY_RO", s)
  | _ => (hidGet keycode, s)

/-- `KeyboardProxy.remap`.  Returns the HID usage code and the state with the
transient flags the rules may set (`self.is_shift_up`, `self.is_shift_down`).
`remapEnabled` is the global `REMAP_ENABLED` toggle read at call time. -/
def remap (s : State) (remapEnabled : Bool) (keycode : String) : Nat × State :=
  if !remapEnabled then (hidGet keycode, s)
  else if !hidMem keycode then (0, s)
  else if keycode = "KEY_LEFTBRACE" then (hidGet "KEY_RIGHTBRACE", s)
  else if keycode = "KEY_RIGHTBRACE" then (hidGet "KEY_BACKSLASH", s)
  else if s.modifier &&& shift_bit ≠ 0 then shiftHeldRules s keycode
  else shiftFreeRules s keycode

/-- The list comprehension `[self.remap(k) for k in self.pressed_keys]`:
remaps each held key in order, threading the flag-carrying state. -/
def remapList (en : Bool) : State → List String → List Nat × State
  | s, [] => ([], s)
  | s, k :: ks =>
    let (c, s') := remap s en k
    let (cs, s'') := remapList en s' ks
    (c :: cs, s'')

/-- Python `modifier &= ~mask` on a nonnegative int: clear the bits of
`mask` in `m`. -/
def clearBits (m mask : Nat) : Nat := m - (m &&& mask)

/-- `KeyboardProxy.update_state`: clears the transient flags, remaps the held
keys, and emits one report — or, when a remap rule set `is_shift_up`, an
intermediate left-shift-only report, a 10 ms (`0.01` s) sleep, and the final
report.  Returns the emission trace and the new state. -/
def update_state (s0 : State) (en : Bool) : List Emission × State :=
  let s1 : State := {s0 with is_shift_up := false, is_shift_down := false}
  let r := remapList en s1 s1.pressed_keys
  let codes := r.1
  let s2 := r.2
  let filtered := (codes.take 6).filter (fun c => c ≠ 0)
  let body := filtered ++ List.replicate (6 - filtered.length) 0
  if s2.is_shift_up then
    ([Emission.report [0x02, 0, 0, 0, 0, 0, 0, 0], Emission.sleep (1/100),
      Emission.report ([s2.modifier ||| 0x02, 0] ++ body)], s2)
  else if s2.is_shift_down then
    ([Emission.report ([clearBits s2.modifier shift_bit, 0] ++ body)], s2)
  else
    ([Emission.report ([s2.modifier, 0] ++ body)], s2)

/-- `KeyboardProxy.update_modifier`: keystate 0 clears the key's bit, any
other keystate sets it; a report is then emitted unconditionally. -/
def update_modifier (s : State) (en : Bool) (keycode : String) (keystate : Nat) :
    List Emission × State :=
  let b := (List.lookup keycode modifiers_map).getD 0
  let s' := if keystate = 0 then {s with modifier := clearBits s.modifier (1 <<< b)}
            else {s with modifier := s.modifier ||| (1 <<< b)}
  update_state s' en

/-- `KeyboardProxy.release`. -/
def release (s : State) (en : Bool) (keycode : String) : List Emission × State :=
  if keycode ∈ s.pressed_keys then
    update_state {s with pressed_keys := s.pressed_keys.erase keycode} en
  else ([], s)

/-- `KeyboardProxy.press`. -/
def press (s : State) (en : Bool) (keycode : String) : List Emission × State :=
  if keycode ∈ s.pressed_keys then ([], s)
  else update_state {s with pressed_keys := s.pressed_keys ++ [keycode]} en

/-- One EV_KEY event as decoded in `KeyboardProxy.run`: a symbolic key name
and a keystate (0 release, 1 press, 2 autorepeat). -/
structure Event where
  keycode : String
  keystate : Nat
deriving DecidableEq

/-- The event dispatch of `KeyboardProxy.run`: modifiers go to
`update_modifier` (for every keystate), keystate 0 to `release`,
keystate 1 to `press`, anything else is dropped. -/
def handle_event (s : State) (en : Bool) (e : Event) : List Emission × State :=
  if (List.lookup e.keycode modifiers_map).isSome then
    update_modifier s en e.keycode e.keystate
  else if e.keystate = 0 then release s en e.keycode
  else if e.keystate = 1 then press s en e.keycode
  else ([], s)

/-- Run the keyboard event loop over a list of events, concatenating the
emission traces. -/
def processEvents (en : Bool) : State → List Event → List Emission × State
  | s, [] => ([], s)
  | s, e :: es =>
    let r1 := handle_event s en e
    let r2 := processEvents en r1.2 es
    (r1.1 ++ r2.1, r2.2)

/-- The reports in an emission trace (dropping the sleeps). -/
def keyReports (l : List Emission) : List (List Nat) :=
  l.filterMap (fun e => match e with | .report r => some r | .sleep _ => none)

/-- The all-zero 8-byte boot-keyboard report. -/
def zeroReport : List Nat := List.replicate 8 0

end KeyboardProxy

/-! ## Mouse translator (`MouseProxy`) -/

namespace MouseProxy

/-- Linux input event codes used by the mouse handlers (`evdev.ecodes`). -/
def BTN_LEFT : Nat := 272

def BTN_RIGHT : Nat := 273

def BTN_MIDDLE : Nat := 274

def BTN_SIDE : Nat := 275

def BTN_EXTRA : Nat := 276

def REL_X : Nat := 0

def REL_Y : Nat := 1

def REL_WHEEL : Nat := 8

/-- The mutable state of a `MouseProxy`: the per-button fields, the delta
accumulators, the aggregate mask `self.btn`, and the drag-stabilisation
bookkeeping.  Wall-clock instants are rationals (seconds). -/
structure State where
  button_left : Nat
  button_right : Nat
  button_center : Nat
  back : Nat
  forward : Nat
  move_x : Int
  move_y : Int
  scroll_y : Int
  btn : Nat
  button_state_buffer : List (Nat × Bool)
  last_button_event_time : List (Nat × ℚ)
  button_debounce_buffer : List (Nat × ℚ × Bool)
  drag_mode : Bool
  last_movement_time : ℚ
  movement_history : List (ℚ × String × Int)
  button_press_start_time : List (Nat × ℚ)
  consecutive_movement_count : Nat
deriving DecidableEq

/-- `MouseProxy.reset_state` on a fresh instance: everything zeroed, all
buffers empty. -/
def reset_state : State :=
  { button_left := 0, button_right := 0, button_center := 0, back := 0, forward := 0,
    move_x := 0, move_y := 0, scroll_y := 0, btn := 0,
    button_state_buffer := [], last_button_event_time := [],
    button_debounce_buffer := [], drag_mode := false, last_movement_time := 0,
    movement_history := [], button_press_start_time := [],
    consecutive_movement_count := 0 }

/-- The debounce test at the top of `MouseProxy.handle_key_event`: the event
is dropped when the previous event for the same code had the same press state
less than 10 ms earlier. -/
def debounceHit (buf : List (Nat × ℚ × Bool)) (code : Nat) (is_press : Bool)
    (current_time : ℚ) : Prop :=
  match List.lookup code buf with
  | some p => current_time - p.1 < 1/100 ∧ p.2 = is_press
  | none => False

instance (buf : List (Nat × ℚ × Bool)) (code : Nat) (is_press : Bool) (t : ℚ) :
    Decidable (debounceHit buf code is_press t) := by
  unfold debounceHit
  cases List.lookup code buf with
  | none => exact inferInstanceAs (Decidable False)
  | some p => exact inferInstanceAs (Decidable (_ ∧ _))

/-- The drag-mode bookkeeping block of `handle_key_event` (after the two
early-return checks on an accidental release have been passed): a BTN_LEFT
press records the press start and may enter drag mode when a movement
happened less than 100 ms ago; a BTN_LEFT release leaves drag mode. -/
def dragStage (s : State) (code : Nat) (is_press : Bool) (current_time : ℚ) : State :=
  if code = BTN_LEFT then
    if is_press then
      {s with button_press_start_time := setA s.button_press_start_time BTN_LEFT current_time,
              drag_mode := if current_time - s.last_movement_time < 1/10 then
                true else s.drag_mode}
    else
      {s with drag_mode := false, consecutive_movement_count := 0}
  else s

/-- The per-button update block at the end of `handle_key_event`: the five
recognised buttons set or clear their field and refresh the state buffers;
any other code falls through; `self.btn` is recomputed unconditionally. -/
def applyButtons (s : State) (code : Nat) (is_press : Bool) (current_time : ℚ) : State :=
  let s :=
    if code = BTN_LEFT then
      {s with button_state_buffer := setA s.button_state_buffer BTN_LEFT is_press,
              last_button_event_time := setA s.last_button_event_time BTN_LEFT current_time,
              button_left := if is_press then 1 else 0}
    else if code = BTN_RIGHT then
      {s with button_state_buffer := setA s.button_state_buffer BTN_RIGHT is_press,
              last_button_event_time := setA s.last_button_event_time BTN_RIGHT current_time,
              button_right := if is_press then 2 else 0}
    else if code = BTN_MIDDLE then
      {s with button_state_buffer := setA s.button_state_buffer BTN_MIDDLE is_press,
              last_button_event_time := setA s.last_button_event_time BTN_MIDDLE current_time,
              button_center := if is_press then 4 else 0}
    else if code = BTN_SIDE then
      {s with button_state_buffer := setA s.button_state_buffer BTN_SIDE is_press,
              last_button_event_time := setA s.last_button_event_time BTN_SIDE current_time,
              back := if is_press then 8 else 0}
    else if code = BTN_EXTRA then
      {s with button_state_buffer := setA s.button_state_buffer BTN_EXTRA is_press,
              last_button_event_time := setA s.last_button_event_time BTN_EXTRA current_time,
              forward := if is_press then 16 else 0}
    else s
  {s with btn := s.button_left ||| s.button_right ||| s.button_center |||
                  s.back ||| s.forward}

/-- `MouseProxy.handle_key_event`.  `is_press = (event.value == 1)`; a
debounced event, and an accidental BTN_LEFT release detected during drag
mode, return early without touching the button fields.  Otherwise the
per-button field is set or cleared and `self.btn` is recomputed. -/
def handle_key_event (s : State) (code : Nat) (value : Int) (current_time : ℚ) :
    State :=
  let is_press : Bool := value == 1
  if debounceHit s.button_debounce_buffer code is_press current_time then s
  else
    let s1 : State := {s with button_debounce_buffer := setA s.button_debounce_buffer code (current_time, is_press)}
    let was_dragging := s1.drag_mode
    if code = BTN_LEFT ∧ is_press = false ∧ s1.drag_mode = true ∧
        current_time - s1.last_movement_time < 3/100 then s1
    else
      let s2 := dragStage s1 code is_press current_time
      if was_dragging = true ∧ code = BTN_LEFT ∧ is_press = false ∧
          current_time - s2.last_movement_time < 5/100 then s2
      else applyButtons s2 code is_press current_time

/-- The movement-history append of `handle_rel_event`: append, then drop the
oldest entry when the history exceeds 10 records. -/
def pushHistory (l : List (ℚ × String × Int)) (e : ℚ × String × Int) :
    List (ℚ × String × Int) :=
  let l' := l ++ [e]
  if l'.length > 10 then l'.tail else l'

/-- `MouseProxy.handle_rel_event`: REL_X / REL_Y / REL_WHEEL overwrite the
corresponding accumulator; X and Y movements also feed the drag detector. -/
def handle_rel_event (s : State) (code : Nat) (value : Int) (current_time : ℚ) :
    State :=
  if code = REL_X then
    let s := {s with move_x := value, last_movement_time := current_time,
                     movement_history := pushHistory s.movement_history (current_time, "X", value)}
    if getA s.button_state_buffer BTN_LEFT false then
      let s := {s with consecutive_movement_count := s.consecutive_movement_count + 1}
      if s.consecutive_movement_count > 3 then {s with drag_mode := true} else s
    else s
  else if code = REL_Y then
    let s := {s with move_y := value, last_movement_time := current_time,
                     movement_history := pushHistory s.movement_history (current_time, "Y", value)}
    if getA s.button_state_buffer BTN_LEFT false then
      let s := {s with consecutive_movement_count := s.consecutive_movement_count + 1}
      if s.consecutive_movement_count > 3 then {s with drag_mode := true} else s
    else s
  else if code = REL_WHEEL then {s with scroll_y := value}
  else s

/-- Python `x & 0xff` on a (possibly negative) int. -/
def lowByte (x : Int) : Nat := (x % 256).toNat

/-- Python `(x >> 8) & 0xff`: arithmetic shift is floor division. -/
def highByte (x : Int) : Nat := ((Int.fdiv x 256) % 256).toNat

/-- `MouseProxy.update_state`: build the report from `bytearray(MouseIndex.MAX)`
— note `MouseIndex.MAX = 7`, so the buffer has seven bytes, indices
`TIP_SW = 0` through `WHEEL_MSB = 6` — write it, and reset the delta
accumulators while keeping the button mask. -/
def update_state (s : State) : List Nat × State :=
  let data : List Nat :=
    [s.btn, lowByte s.move_x, highByte s.move_x, lowByte s.move_y, highByte s.move_y,
     lowByte s.scroll_y, highByte s.scroll_y]
  (data, {s with move_x := 0, move_y := 0, scroll_y := 0})

/-- One EV_REL event of a SYN frame: code, signed value, and the wall-clock
instant at which the handler processes it. -/
structure RelEvent where
  code : Nat
  value : Int
  time : ℚ
deriving DecidableEq

/-- Feed a list of EV_REL events to `handle_rel_event` in order. -/
def applyRels (s : State) (evs : List RelEvent) : State :=
  evs.foldl (fun st e => handle_rel_event st e.code e.value e.time) s

/-- The last value carried by an event of the given axis, 0 when the frame
holds none — the delta the claim says the report must contain. -/
def lastRelValue (evs : List RelEvent) (axis : Nat) : Int :=
  (((evs.filter (fun e => e.code = axis)).getLast?).map (fun e => e.value)).getD 0

end MouseProxy

/-! ## HID writer (`write_report` of both proxies) -/

/-- The outcome of the underlying `open`/`write` pair inside `write_report`:
success, an `OSError` with its errno, or any other exception. -/
inductive WriteOutcome where
  | ok
  | osError (errno : Nat)
  | otherError
deriving DecidableEq

namespace MouseProxy

/-- `MouseProxy.write_report`: an `OSError` with errno 108 (ESHUTDOWN) is
re-raised (modelled as `Except.error errno`); every other failure is logged
and swallowed, returning normally. -/
def write_report (outcome : WriteOutcome) : Except Nat Unit :=
  match outcome with
  | .ok => .ok ()
  | .osError e => if e = 108 then .error e else .ok ()
  | .otherError => .ok ()

end MouseProxy

namespace KeyboardProxy

/-- `KeyboardProxy.write_report`: identical failure classification to the
mouse writer. -/
def write_report (outcome : WriteOutcome) : Except Nat Unit :=
  match outcome with
  | .ok => .ok ()
  | .osError e => if e = 108 then .error e else .ok ()
  | .otherError => .ok ()

end KeyboardProxy

/-! ## Device supervisor (`reap_dead_tasks` / `manage_device_connections`) -/

namespace Supervisor

/-- Supervisor state for one device class: the free endpoint pool
(`available_keyboard_hids` / `available_mouse_hids`, a Python set) and the
managed map from input-device path to its assigned endpoint
(`managed_devices[path]['hid_output']`). -/
structure PoolState where
  available : List String
  managed : List (String × String)
deriving DecidableEq

/-- Python `set.add`: no duplicates. -/
def addSet (l : List String) (x : String) : List String :=
  if x ∈ l then l else x :: l

/-- Remove the binding of `path` from the managed map (`managed_devices.pop`). -/
def dropPath (m : List (String × String)) (path : String) : List (String × String) :=
  m.filter (fun p => p.1 ≠ path)

/-- One supervisor action per tick, per path: reaping a completed session,
assigning a free endpoint to a newly present device, or cancelling and
releasing a newly absent device. -/
inductive Step where
  | reap (path : String)
  | connect (path : String)
  | disconnect (path : String)
deriving DecidableEq

/-- The body of `reap_dead_tasks` for one completed path: pop the session and
return its endpoint to the free pool. -/
def reapStep (st : PoolState) (path : String) : PoolState :=
  match List.lookup path st.managed with
  | none => st
  | some ep => { available := addSet st.available ep, managed := dropPath st.managed path }

/-- The newly-present branch of `manage_device_connections`: when the path is
not yet managed and the pool is non-empty, pop an endpoint and record the
session; otherwise log and skip. -/
def connectStep (st : PoolState) (path : String) : PoolState :=
  if (List.lookup path st.managed).isSome then st
  else
    match st.available with
    | [] => st
    | ep :: rest => { available := rest, managed := (path, ep) :: st.managed }

/-- The newly-absent branch of `manage_device_connections`: cancel the task
and return the endpoint to the pool. -/
def disconnectStep (st : PoolState) (path : String) : PoolState :=
  match List.lookup path st.managed with
  | none => st
  | some ep => { available := addSet st.available ep, managed := dropPath st.managed path }

/-- Apply one supervisor action. -/
def applyStep (st : PoolState) : Step → PoolState
  | .reap p => reapStep st p
  | .connect p => connectStep st p
  | .disconnect p => disconnectStep st p

/-- Apply a sequence of supervisor actions. -/
def applySteps (st : PoolState) (steps : List Step) : PoolState :=
  steps.foldl applyStep st

/-- The endpoints currently held by sessions. -/
def assigned (st : PoolState) : List String := st.managed.map Prod.snd

/-- The pool invariant of §3 of the spec: free and assigned endpoints are
pairwise distinct (no endpoint is free and assigned, or assigned twice),
their union is the fixed pool, and managed paths are distinct. -/
def Inv (pool : Multiset String) (st : PoolState) : Prop :=
  (st.available ++ assigned st).Nodup ∧
  (st.available ++ assigned st : Multiset String) = pool ∧
  (st.managed.map Prod.fst).Nodup

end Supervisor

/-! ## Basic lemmas about the keyboard translator -/

namespace KeyboardProxy

theorem shiftHeldRules_state (s : State) (k : String) :
    (shiftHeldRules s k).2 = s ∨ (shiftHeldRules s k).2 = {s with is_shift_down := true} := by
  unfold shiftHeldRules
  split <;> first | exact Or.inl rfl | exact Or.inr rfl

theorem shiftFreeRules_state (s : State) (k : String) :
    (shiftFreeRules s k).2 = s ∨ (shiftFreeRules s k).2 = {s with is_shift_up := true} := by
  unfold shiftFreeRules
  split <;> first | exact Or.inl rfl | exact Or.inr rfl

theorem remap_state (s : State) (en : Bool) (k : String) :
    (remap s en k).2 = s ∨ (remap s en k).2 = {s with is_shift_down := true} ∨
      (remap s en k).2 = {s with is_shift_up := true} := by
  unfold remap
  split_ifs
  · exact Or.inl rfl
  · exact Or.inl rfl
  · exact Or.inl rfl
  · exact Or.inl rfl
  · rcases shiftHeldRules_state s k with h | h
    · exact Or.inl h
    · exact Or.inr (Or.inl h)
  · rcases shiftFreeRules_state s k with h | h
    · exact Or.inl h
    · exact Or.inr (Or.inr h)

theorem remap_modifier_eq (s : State) (en : Bool) (k : String) :
    (remap s en k).2.modifier = s.modifier := by
  rcases remap_state s en k with h | h | h <;> rw [h]

theorem remap_pressed_eq (s : State) (en : Bool) (k : String) :
    (remap s en k).2.pressed_keys = s.pressed_keys := by
  rcases remap_state s en k with h | h | h <;> rw [h]

theorem remap_shift_up_mono (s : State) (en : Bool) (k : String)
    (h : s.is_shift_up = true) : (remap s en k).2.is_shift_up = true := by
  rcases remap_state s en k with h' | h' | h' <;> rw [h'] <;> exact h

theorem remap_shift_up_mono' (s : State) (en : Bool) (k : String)
    (h : (remap s en k).2.is_shift_up = false) : s.is_shift_up = false := by
  rcases remap_state s en k with h' | h' | h' <;> rw [h'] at h <;> simp_all

theorem remapList_modifier_eq (en : Bool) (ks : List String) (s : State) :
    (remapList en s ks).2.modifier = s.modifier := by
  induction ks generalizing s with
  | nil => rfl
  | cons k ks ih =>
    simpa [remapList, remap_modifier_eq] using
      (ih (remap s en k).2).trans (remap_modifier_eq s en k)

theorem remapList_pressed_eq (en : Bool) (ks : List String) (s : State) :
    (remapList en s ks).2.pressed_keys = s.pressed_keys := by
  induction ks generalizing s with
  | nil => rfl
  | cons k ks ih =>
    simpa [remapList, remap_pressed_eq] using
      (ih (remap s en k).2).trans (remap_pressed_eq s en k)

theorem update_state_modifier (s : State) (en : Bool) :
    (update_state s en).2.modifier = s.modifier := by
  simp only [update_state]
  split_ifs <;> simp [remapList_modifier_eq]

theorem update_state_pressed (s : State) (en : Bool) :
    (update_state s en).2.pressed_keys = s.pressed_keys := by
  simp only [update_state]
  split_ifs <;> simp [remapList_pressed_eq]

theorem update_state_ne_nil (s : State) (en : Bool) :
    (update_state s en).1 ≠ [] := by
  simp only [update_state]
  split_ifs <;> simp

theorem remap_sets_shift_up (s : State) (k : String) (hm : s.modifier &&& shift_bit = 0)
    (hk : k = "KEY_APOSTROPHE" ∨ k = "KEY_GRAVE" ∨ k = "KEY_EQUAL") :
    (remap s true k).2.is_shift_up = true := by
  rcases hk with rfl | rfl | rfl <;>
  · unfold remap shiftFreeRules
    simp [hm, hidMem, hid_key_map, List.lookup]

theorem remapList_shift_up_mono (en : Bool) (ks : List String) (s : State)
    (h : s.is_shift_up = true) : (remapList en s ks).2.is_shift_up = true := by
  induction ks generalizing s with
  | nil => exact h
  | cons a as ih =>
    simpa [remapList] using ih (remap s en a).2 (remap_shift_up_mono s en a h)

theorem remapList_shift_up_of_mem (ks : List String) (s : State)
    (hm : s.modifier &&& shift_bit = 0) (k : String) (hk : k ∈ ks)
    (ht : k = "KEY_APOSTROPHE" ∨ k = "KEY_GRAVE" ∨ k = "KEY_EQUAL") :
    (remapList true s ks).2.is_shift_up = true := by
  induction ks generalizing s with
  | nil => cases hk
  | cons a as ih =>
    rcases List.mem_cons.mp hk with rfl | hmem
    · simpa [remapList] using
        remapList_shift_up_mono true as (remap s true k).2 (remap_sets_shift_up s k hm ht)
    · have hm' : (remap s true a).2.modifier &&& shift_bit = 0 := by
        rw [remap_modifier_eq]; exact hm
      simpa [remapList] using ih (remap s true a).2 hm' hmem

/-- The source keys of the remap rules in `KeyboardProxy.remap`. -/
def ruleKeys : List String :=
  ["KEY_LEFTBRACE", "KEY_RIGHTBRACE", "KEY_7", "KEY_8", "KEY_9", "KEY_0",
   "KEY_EQUAL", "KEY_GRAVE", "KEY_MINUS", "KEY_2", "KEY_6", "KEY_BACKSLASH",
   "KEY_SEMICOLON", "KEY_APOSTROPHE"]

/-- The key-slot bytes the source builds in `update_state`: the held keys'
remapped codes are truncated to the first six and only then filtered for
zeros, so a zero code inside the first six wastes a slot. -/
def codeSlots (codes : List Nat) : List Nat :=
  let f := (codes.take 6).filter (fun c => c ≠ 0)
  f ++ List.replicate (6 - f.length) 0

/-- The key-slot bytes as the claim describes them: the first six NON-ZERO
remapped codes, zero-padded — i.e. zeros are dropped before truncation.
Stated from the spec's words, for comparison with `codeSlots`. -/
def claimSlots (codes : List Nat) : List Nat :=
  let nz := (codes.filter (fun c => c ≠ 0)).take 6
  nz ++ List.replicate (6 - nz.length) 0

/-- The remapped codes of the held keys as computed at the top of
`update_state` (after the transient flags are cleared). -/
def remappedCodes (s : State) (en : Bool) : List Nat :=
  (remapList en {s with is_shift_up := false, is_shift_down := false} s.pressed_keys).1

end KeyboardProxy

/-! ## Keyboard event sequences: held-set evolution and emitted traces -/

namespace KeyboardProxy

/-- The pure evolution of the held-key set under one event, mirroring the
dispatch of `KeyboardProxy.run`: modifiers leave it alone, keystate 0
removes, keystate 1 inserts, anything else is dropped. -/
def stepPressed (ps : List String) (e : Event) : List String :=
  if (List.lookup e.keycode modifiers_map).isSome then ps
  else if e.keystate = 0 then (if e.keycode ∈ ps then ps.erase e.keycode else ps)
  else if e.keystate = 1 then (if e.keycode ∈ ps then ps else ps ++ [e.keycode])
  else ps

/-- Every press in the sequence has a matching later release of the same
key: the claim's balance condition. -/
def BalancedP (evs : List Event) : Prop :=
  ∀ pre e post, evs = pre ++ e :: post → e.keystate = 1 →
    ∃ e' ∈ post, e'.keycode = e.keycode ∧ e'.keystate = 0

/-- Executable check for `BalancedP`. -/
def balancedB : List Event → Bool
  | [] => true
  | e :: es =>
    (if e.keystate = 1 then es.any (fun x => x.keycode == e.keycode && x.keystate == 0)
     else true) && balancedB es

/-- The final report `update_state` writes, as a function of the modifier
mask and the held-key list alone (the transient flags are cleared at the
top of `update_state`). -/
def lastRep (m : Nat) (ps : List String) (en : Bool) : List Nat :=
  let r := remapList en ⟨m, ps, false, false⟩ ps
  let filtered := (r.1.take 6).filter (fun c => c ≠ 0)
  let body := filtered ++ List.replicate (6 - filtered.length) 0
  if r.2.is_shift_up then [r.2.modifier ||| 2, 0] ++ body
  else if r.2.is_shift_down then [clearBits r.2.modifier shift_bit, 0] ++ body
  else [r.2.modifier, 0] ++ body

theorem update_state_flags_irrelevant (s : State) (en : Bool) :
    update_state s en = update_state ⟨s.modifier, s.pressed_keys, false, false⟩ en := by
  cases s
  rfl

theorem update_state_keyReports_getLast (s : State) (en : Bool) :
    (keyReports (update_state s en).1).getLast? =
      some (lastRep s.modifier s.pressed_keys en) := by
  rw [update_state_flags_irrelevant]
  simp only [update_state, lastRep]
  split_ifs <;> simp [keyReports]

theorem handle_event_cases (s : State) (en : Bool) (e : Event)
    (hm : List.lookup e.keycode modifiers_map = none) :
    handle_event s en e = ([], s) ∨
    (∃ ps', handle_event s en e = update_state {s with pressed_keys := ps'} en) := by
  unfold handle_event
  rw [if_neg (by simp [hm])]
  by_cases h0 : e.keystate = 0
  · rw [if_pos h0]
    unfold release
    by_cases hmem : e.keycode ∈ s.pressed_keys
    · exact Or.inr ⟨s.pressed_keys.erase e.keycode, by rw [if_pos hmem]⟩
    · exact Or.inl (by rw [if_neg hmem])
  · rw [if_neg h0]
    by_cases h1 : e.keystate = 1
    · rw [if_pos h1]
      unfold press
      by_cases hmem : e.keycode ∈ s.pressed_keys
      · exact Or.inl (by rw [if_pos hmem])
      · exact Or.inr ⟨s.pressed_keys ++ [e.keycode], by rw [if_neg hmem]⟩
    · rw [if_neg h1]
      exact Or.inl rfl

theorem handle_event_pressed (s : State) (en : Bool) (e : Event) :
    (handle_event s en e).2.pressed_keys = stepPressed s.pressed_keys e := by
  unfold handle_event stepPressed update_modifier release press
  split_ifs <;> simp [update_state_pressed]

theorem keyReports_append (l1 l2 : List Emission) :
    keyReports (l1 ++ l2) = keyReports l1 ++ keyReports l2 := by
  simp [keyReports]

theorem processEvents_pressed (en : Bool) (evs : List Event) (s : State) :
    (processEvents en s evs).2.pressed_keys = evs.foldl stepPressed s.pressed_keys := by
  induction evs generalizing s with
  | nil => rfl
  | cons e es ih =>
    show (processEvents en (handle_event s en e).2 es).2.pressed_keys = _
    rw [ih, handle_event_pressed]
    rfl

theorem processEvents_modifier (en : Bool) (evs : List Event) (s : State)
    (hmod : ∀ e ∈ evs, List.lookup e.keycode modifiers_map = none) :
    (processEvents en s evs).2.modifier = s.modifier := by
  induction evs generalizing s with
  | nil => rfl
  | cons e es ih =>
    have hm := hmod e (List.mem_cons_self e es)
    have hms : ∀ e' ∈ es, List.lookup e'.keycode modifiers_map = none :=
      fun e' h => hmod e' (List.mem_cons_of_mem e h)
    show (processEvents en (handle_event s en e).2 es).2.modifier = s.modifier
    rw [ih _ hms]
    rcases handle_event_cases s en e hm with h1 | ⟨ps', h1⟩
    · rw [h1]
    · rw [h1, update_state_modifier]

/-- Either a run of non-modifier events emits nothing and leaves the state
untouched, or the last report emitted is the rendering of the final
state. -/
theorem processEvents_last (en : Bool) (evs : List Event) (s : State)
    (hmod : ∀ e ∈ evs, List.lookup e.keycode modifiers_map = none) :
    ((processEvents en s evs).1 = [] ∧ (processEvents en s evs).2 = s) ∨
    (keyReports (processEvents en s evs).1).getLast? =
      some (lastRep (processEvents en s evs).2.modifier
        (processEvents en s evs).2.pressed_keys en) := by
  induction evs generalizing s with
  | nil => exact Or.inl ⟨rfl, rfl⟩
  | cons e es ih =>
    have hm := hmod e (List.mem_cons_self e es)
    have hms : ∀ e' ∈ es, List.lookup e'.keycode modifiers_map = none :=
      fun e' h => hmod e' (List.mem_cons_of_mem e h)
    have hsplit : processEvents en s (e :: es) =
        ((handle_event s en e).1 ++ (processEvents en (handle_event s en e).2 es).1,
         (processEvents en (handle_event s en e).2 es).2) := rfl
    rcases handle_event_cases s en e hm with h1 | ⟨ps', h1⟩
    · rcases ih s hms with ⟨hnil, hst⟩ | hlast
      · left
        rw [hsplit, h1]
        dsimp only
        simp only [List.nil_append]
        exact ⟨hnil, hst⟩
      · right
        rw [hsplit, h1]
        dsimp only
        simp only [List.nil_append]
        exact hlast
    · rcases ih (update_state {s with pressed_keys := ps'} en).2 hms with ⟨hnil, hst⟩ | hlast
      · right
        rw [hsplit, h1]
        dsimp only
        rw [hnil, hst, List.append_nil, update_state_keyReports_getLast,
            update_state_modifier, update_state_pressed]
      · right
        rw [hsplit, h1]
        dsimp only
        rw [keyReports_append]
        have hne : keyReports (processEvents en
            (update_state {s with pressed_keys := ps'} en).2 es).1 ≠ [] := by
          intro hcontra
          rw [hcontra] at hlast
          simp at hlast
        rw [List.getLast?_append_of_ne_nil _ hne]
        exact hlast

/-- A balanced event sequence empties any held set whose members all have a
pending release. -/
theorem foldl_stepPressed_empty (evs : List Event) (ps : List String)
    (hps : ∀ k ∈ ps, List.lookup k modifiers_map = none ∧
      ∃ e ∈ evs, e.keycode = k ∧ e.keystate = 0)
    (hnd : ps.Nodup) (hb : BalancedP evs) :
    evs.foldl stepPressed ps = [] := by
  induction evs generalizing ps with
  | nil =>
    cases hp : ps with
    | nil => rfl
    | cons a as =>
      obtain ⟨-, e, he, -⟩ := hps a (by rw [hp]; exact List.mem_cons_self a as)
      exact absurd he (List.not_mem_nil e)
  | cons e es ih =>
    rw [List.foldl_cons]
    have hb' : BalancedP es := by
      intro pre e' post hpp hk
      exact hb (e :: pre) e' post (by rw [hpp]; rfl) hk
    refine ih (stepPressed ps e) ?_ ?_ hb'
    · intro k hk
      unfold stepPressed at hk
      split_ifs at hk with hmod h0 hmem h1 hmem2
      · obtain ⟨hkmod, e0, he0, hc0, hs0⟩ := hps k hk
        refine ⟨hkmod, e0, ?_, hc0, hs0⟩
        rcases List.mem_cons.mp he0 with rfl | h
        · rw [hc0, hkmod] at hmod
          simp at hmod
        · exact h
      · have hk2 := (List.Nodup.mem_erase_iff hnd).mp hk
        obtain ⟨hkmod, e0, he0, hc0, hs0⟩ := hps k hk2.2
        refine ⟨hkmod, e0, ?_, hc0, hs0⟩
        rcases List.mem_cons.mp he0 with rfl | h
        · exact absurd hc0.symm hk2.1
        · exact h
      · obtain ⟨hkmod, e0, he0, hc0, hs0⟩ := hps k hk
        refine ⟨hkmod, e0, ?_, hc0, hs0⟩
        rcases List.mem_cons.mp he0 with rfl | h
        · exact absurd (hc0 ▸ hk) hmem
        · exact h
      · obtain ⟨hkmod, e0, he0, hc0, hs0⟩ := hps k hk
        refine ⟨hkmod, e0, ?_, hc0, hs0⟩
        rcases List.mem_cons.mp he0 with rfl | h
        · rw [hs0] at h1
          exact absurd h1.symm (by simp)
        · exact h
      · rcases List.mem_append.mp hk with hkps | hksing
        · obtain ⟨hkmod, e0, he0, hc0, hs0⟩ := hps k hkps
          refine ⟨hkmod, e0, ?_, hc0, hs0⟩
          rcases List.mem_cons.mp he0 with rfl | h
          · rw [hs0] at h1
            exact absurd h1.symm (by simp)
          · exact h
        · rw [List.mem_singleton] at hksing
          subst hksing
          refine ⟨Option.not_isSome_iff_eq_none.mp hmod, ?_⟩
          obtain ⟨e', he', hc', hs'⟩ := hb [] e es rfl h1
          exact ⟨e', he', hc', hs'⟩
      · obtain ⟨hkmod, e0, he0, hc0, hs0⟩ := hps k hk
        refine ⟨hkmod, e0, ?_, hc0, hs0⟩
        rcases List.mem_cons.mp he0 with rfl | h
        · exact absurd hs0 h0
        · exact h
    · unfold stepPressed
      split_ifs with hmod h0 hmem h1 hmem2
      · exact hnd
      · exact hnd.erase _
      · exact hnd
      · exact hnd
      · refine List.Nodup.append hnd (List.nodup_singleton _) ?_
        intro a ha hain
        rw [List.mem_singleton] at hain
        exact hmem2 (hain ▸ ha)
      · exact hnd

theorem balancedB_sound (evs : List Event) (h : balancedB evs = true) :
    BalancedP evs := by
  induction evs with
  | nil =>
    intro pre e post hp
    cases pre <;> simp at hp
  | cons a as ih =>
    rw [balancedB, Bool.and_eq_true] at h
    intro pre e post hp hk
    cases pre with
    | nil =>
      simp only [List.nil_append, List.cons.injEq] at hp
      obtain ⟨rfl, rfl⟩ := hp
      rw [if_pos hk, List.any_eq_true] at h
      obtain ⟨x, hx, hxx⟩ := h.1
      rw [Bool.and_eq_true, beq_iff_eq, beq_iff_eq] at hxx
      exact ⟨x, hx, hxx.1, hxx.2⟩
    | cons b pre' =>
      simp only [List.cons_append, List.cons.injEq] at hp
      exact ih h.2 pre' e post hp.2 hk

end KeyboardProxy

/-! ## Basic lemmas about the mouse translator -/

namespace MouseProxy

theorem handle_rel_event_fields (s : State) (code : Nat) (value : Int) (t : ℚ) :
    (handle_rel_event s code value t).move_x = (if code = REL_X then value else s.move_x) ∧
    (handle_rel_event s code value t).move_y = (if code = REL_Y then value else s.move_y) ∧
    (handle_rel_event s code value t).scroll_y = (if code = REL_WHEEL then value else s.scroll_y) ∧
    (handle_rel_event s code value t).btn = s.btn := by
  unfold handle_rel_event
  split_ifs <;> simp_all [apply_ite, REL_X, REL_Y, REL_WHEEL]

theorem applyRels_move_x (evs : List RelEvent) (s : State) :
    (applyRels s evs).move_x =
      evs.foldl (fun a e => if e.code = REL_X then e.value else a) s.move_x := by
  induction evs generalizing s with
  | nil => rfl
  | cons e es ih =>
    show (applyRels (handle_rel_event s e.code e.value e.time) es).move_x = _
    rw [ih, (handle_rel_event_fields s e.code e.value e.time).1]
    rfl

theorem applyRels_move_y (evs : List RelEvent) (s : State) :
    (applyRels s evs).move_y =
      evs.foldl (fun a e => if e.code = REL_Y then e.value else a) s.move_y := by
  induction evs generalizing s with
  | nil => rfl
  | cons e es ih =>
    show (applyRels (handle_rel_event s e.code e.value e.time) es).move_y = _
    rw [ih, (handle_rel_event_fields s e.code e.value e.time).2.1]
    rfl

theorem applyRels_scroll_y (evs : List RelEvent) (s : State) :
    (applyRels s evs).scroll_y =
      evs.foldl (fun a e => if e.code = REL_WHEEL then e.value else a) s.scroll_y := by
  induction evs generalizing s with
  | nil => rfl
  | cons e es ih =>
    show (applyRels (handle_rel_event s e.code e.value e.time) es).scroll_y = _
    rw [ih, (handle_rel_event_fields s e.code e.value e.time).2.2.1]
    rfl

theorem applyRels_btn (evs : List RelEvent) (s : State) :
    (applyRels s evs).btn = s.btn := by
  induction evs generalizing s with
  | nil => rfl
  | cons e es ih =>
    show (applyRels (handle_rel_event s e.code e.value e.time) es).btn = _
    rw [ih, (handle_rel_event_fields s e.code e.value e.time).2.2.2]

/-- An overwrite fold computes the last value of the selected axis. -/
theorem foldl_overwrite_last (evs : List RelEvent) (axis : Nat) (d : Int) :
    evs.foldl (fun a e => if e.code = axis then e.value else a) d =
      (((evs.filter (fun e => e.code = axis)).getLast?).map (fun e => e.value)).getD d := by
  induction evs generalizing d with
  | nil => rfl
  | cons e es ih =>
    by_cases h : e.code = axis
    · rw [List.foldl_cons, if_pos h, ih, List.filter_cons_of_pos (by simp [h])]
      cases hf : es.filter (fun e => decide (e.code = axis)) with
      | nil => simp
      | cons y ys =>
        rw [List.getLast?_cons_cons]
        obtain ⟨z, hz⟩ : ∃ z, (y :: ys).getLast? = some z :=
          ⟨(y :: ys).getLast (by simp), List.getLast?_eq_getLast _ (by simp)⟩
        rw [hz]
        rfl
    · rw [List.foldl_cons, if_neg h, ih, List.filter_cons_of_neg (by simp [h])]

theorem applyRels_last_x (evs : List RelEvent) (s : State) (hx : s.move_x = 0) :
    (applyRels s evs).move_x = lastRelValue evs REL_X := by
  rw [applyRels_move_x, hx, foldl_overwrite_last]
  rfl

theorem applyRels_last_y (evs : List RelEvent) (s : State) (hy : s.move_y = 0) :
    (applyRels s evs).move_y = lastRelValue evs REL_Y := by
  rw [applyRels_move_y, hy, foldl_overwrite_last]
  rfl

theorem applyRels_last_w (evs : List RelEvent) (s : State) (hw : s.scroll_y = 0) :
    (applyRels s evs).scroll_y = lastRelValue evs REL_WHEEL := by
  rw [applyRels_scroll_y, hw, foldl_overwrite_last]
  rfl

theorem dragStage_fields (s : State) (code : Nat) (ip : Bool) (t : ℚ) :
    (dragStage s code ip t).button_left = s.button_left ∧
    (dragStage s code ip t).button_right = s.button_right ∧
    (dragStage s code ip t).button_center = s.button_center ∧
    (dragStage s code ip t).back = s.back ∧
    (dragStage s code ip t).forward = s.forward ∧
    (dragStage s code ip t).btn = s.btn ∧
    (dragStage s code ip t).last_movement_time = s.last_movement_time := by
  unfold dragStage
  split_ifs <;> simp

theorem applyButtons_btn (s : State) (code : Nat) (ip : Bool) (t : ℚ) :
    (applyButtons s code ip t).btn =
      (if code = BTN_LEFT then (if ip then 1 else 0) else s.button_left) |||
      (if code = BTN_RIGHT then (if ip then 2 else 0) else s.button_right) |||
      (if code = BTN_MIDDLE then (if ip then 4 else 0) else s.button_center) |||
      (if code = BTN_SIDE then (if ip then 8 else 0) else s.back) |||
      (if code = BTN_EXTRA then (if ip then 16 else 0) else s.forward) := by
  unfold applyButtons
  split_ifs <;> simp_all [BTN_LEFT, BTN_RIGHT, BTN_MIDDLE, BTN_SIDE, BTN_EXTRA]

/-- When neither the debounce filter nor the drag-stabilisation early
returns fire, `handle_key_event` runs all three stages. -/
theorem handle_key_event_not_suppressed (s : State) (code : Nat) (value : Int) (t : ℚ)
    (hdeb : ¬ debounceHit s.button_debounce_buffer code (value == 1) t)
    (hdrag : code = BTN_LEFT → (value == 1) = false → s.drag_mode = true →
      ¬ t - s.last_movement_time < 5/100) :
    handle_key_event s code value t =
      applyButtons (dragStage {s with button_debounce_buffer := setA s.button_debounce_buffer code (t, value == 1)} code (value == 1) t)
        code (value == 1) t := by
  unfold handle_key_event
  rw [if_neg hdeb]
  dsimp only
  split_ifs with h1 h2
  · exact absurd (by linarith [h1.2.2.2]) (hdrag h1.1 h1.2.1 h1.2.2.1)
  · exfalso
    have hlm := (dragStage_fields {s with button_debounce_buffer := setA s.button_debounce_buffer code (t, value == 1)} code (value == 1) t).2.2.2.2.2.2
    rw [hlm] at h2
    exact hdrag h2.2.1 h2.2.2.1 h2.1 h2.2.2.2
  · rfl

end MouseProxy

/-! ## Basic lemmas about the supervisor pool -/

namespace Supervisor

theorem lookup_none_not_mem (m : List (String × String)) (p : String)
    (h : List.lookup p m = none) : p ∉ m.map Prod.fst := by
  induction m with
  | nil => simp
  | cons a as ih =>
    rcases a with ⟨k, v⟩
    rw [List.lookup_cons] at h
    by_cases hp : p = k
    · subst hp
      simp at h
    · rw [beq_false_of_ne hp] at h
      simp only [List.map_cons, List.mem_cons]
      rintro (rfl | hmem)
      · exact hp rfl
      · exact ih h hmem

/-- With distinct keys, a successful lookup splits the managed map into the
found binding and the rest. -/
theorem lookup_some_perm (m : List (String × String)) (p ep : String)
    (hnd : (m.map Prod.fst).Nodup) (hl : List.lookup p m = some ep) :
    m.Perm ((p, ep) :: dropPath m p) := by
  induction m with
  | nil => simp [List.lookup] at hl
  | cons a as ih =>
    rcases a with ⟨k, v⟩
    rw [List.lookup_cons] at hl
    rw [List.map_cons] at hnd
    have hnd1 := List.nodup_cons.mp hnd
    by_cases hp : p = k
    · subst hp
      simp at hl
      subst hl
      have hfil : dropPath ((p, v) :: as) p = dropPath as p := by
        simp [dropPath]
      have hall : dropPath as p = as := by
        refine List.filter_eq_self.mpr ?_
        intro x hx
        have hxp : x.1 ≠ p := by
          intro hxe
          exact hnd1.1 (by simpa [hxe] using List.mem_map_of_mem Prod.fst hx)
        simpa using hxp
      rw [hfil, hall]
    · rw [beq_false_of_ne hp] at hl
      have hperm := ih hnd1.2 hl
      have hkp : k ≠ p := fun h => hp h.symm
      have hfil : dropPath ((k, v) :: as) p = (k, v) :: dropPath as p := by
        simp [dropPath, hkp]
      rw [hfil]
      exact (hperm.cons (k, v)).trans (List.Perm.swap (p, ep) (k, v) (dropPath as p))

theorem reapStep_inv (pool : Multiset String) (st : PoolState) (p : String)
    (h : Inv pool st) : Inv pool (reapStep st p) := by
  unfold reapStep
  cases hl : List.lookup p st.managed with
  | none => exact h
  | some ep =>
    obtain ⟨hnodup, hms, hkeys⟩ := h
    have hperm : st.managed.Perm ((p, ep) :: dropPath st.managed p) :=
      lookup_some_perm _ _ _ hkeys hl
    have h2 : (assigned st).Perm (ep :: (dropPath st.managed p).map Prod.snd) := by
      simpa [assigned] using hperm.map Prod.snd
    have hmem_ep : ep ∈ assigned st := h2.mem_iff.mpr (List.mem_cons_self _ _)
    have hnotav : ep ∉ st.available := by
      rcases List.nodup_append.mp hnodup with ⟨_, _, hdisj⟩
      exact fun hmem => hdisj hmem hmem_ep
    have haddset : addSet st.available ep = ep :: st.available := by
      simp [addSet, hnotav]
    have hcomb : (addSet st.available ep ++ (dropPath st.managed p).map Prod.snd).Perm
        (st.available ++ assigned st) := by
      rw [haddset]
      exact (List.perm_middle).symm.trans (List.Perm.append_left st.available h2.symm)
    refine ⟨?_, ?_, ?_⟩
    · exact hcomb.nodup_iff.mpr hnodup
    · calc (↑(addSet st.available ep ++ (dropPath st.managed p).map Prod.snd) : Multiset String)
          = ↑(st.available ++ assigned st) := Multiset.coe_eq_coe.mpr hcomb
        _ = pool := hms
    · exact hkeys.sublist (List.Sublist.map Prod.fst (List.filter_sublist st.managed))

theorem disconnectStep_eq_reapStep : disconnectStep = reapStep := rfl

theorem connectStep_inv (pool : Multiset String) (st : PoolState) (p : String)
    (h : Inv pool st) : Inv pool (connectStep st p) := by
  unfold connectStep
  by_cases hs : (List.lookup p st.managed).isSome
  · rw [if_pos hs]
    exact h
  · rw [if_neg hs]
    have hnone : List.lookup p st.managed = none := Option.not_isSome_iff_eq_none.mp hs
    cases hav : st.available with
    | nil => exact h
    | cons ep rest =>
      obtain ⟨hnodup, hms, hkeys⟩ := h
      rw [hav] at hnodup hms
      have hcomb : (rest ++ (assigned {available := rest, managed := (p, ep) :: st.managed})).Perm
          ((ep :: rest) ++ assigned st) := by
        simp only [assigned, List.map_cons]
        exact List.perm_middle
      refine ⟨?_, ?_, ?_⟩
      · exact hcomb.nodup_iff.mpr hnodup
      · calc (↑(rest ++ assigned {available := rest, managed := (p, ep) :: st.managed}) : Multiset String)
            = ↑((ep :: rest) ++ assigned st) := Multiset.coe_eq_coe.mpr hcomb
          _ = pool := hms
      · exact List.nodup_cons.mpr ⟨lookup_none_not_mem _ _ hnone, hkeys⟩

theorem applyStep_inv (pool : Multiset String) (st : PoolState) (e : Step)
    (h : Inv pool st) : Inv pool (applyStep st e) := by
  cases e with
  | reap p => exact reapStep_inv pool st p h
  | connect p => exact connectStep_inv pool st p h
  | disconnect p =>
    show Inv pool (disconnectStep st p)
    rw [disconnectStep_eq_reapStep]
    exact reapStep_inv pool st p h

end Supervisor

/-! ## Claim theorems -/

open KeyboardProxy MouseProxy Supervisor

/-- Claim C3: for every call of the HID writer (mouse or keyboard), a write
failing with errno 108 (ESHUTDOWN) propagates out of `write_report` (so the
session loop terminates), and a write failing with any other error returns
normally after logging. -/
theorem C3_write_report_classification (o : WriteOutcome) (e : Nat) :
    (MouseProxy.write_report o = Except.error e ↔ o = WriteOutcome.osError 108 ∧ e = 108) ∧
    (KeyboardProxy.write_report o = Except.error e ↔ o = WriteOutcome.osError 108 ∧ e = 108) ∧
    (o ≠ WriteOutcome.osError 108 →
      MouseProxy.write_report o = Except.ok () ∧
      KeyboardProxy.write_report o = Except.ok ()) := by
  refine ⟨?_, ?_, ?_⟩
  · cases o with
    | ok => simp [MouseProxy.write_report]
    | otherError => simp [MouseProxy.write_report]
    | osError k =>
      by_cases hk : k = 108 <;> simp [MouseProxy.write_report, hk, eq_comm]
  · cases o with
    | ok => simp [KeyboardProxy.write_report]
    | otherError => simp [KeyboardProxy.write_report]
    | osError k =>
      by_cases hk : k = 108 <;> simp [KeyboardProxy.write_report, hk, eq_comm]
  · intro ho
    cases o with
    | ok => exact ⟨rfl, rfl⟩
    | otherError => exact ⟨rfl, rfl⟩
    | osError k =>
      have hk : k ≠ 108 := fun h => ho (by rw [h])
      exact ⟨by simp [MouseProxy.write_report, hk], by simp [KeyboardProxy.write_report, hk]⟩

/-- Witness for C3 at concrete outcomes: errno 5 (EIO) is swallowed, errno
108 propagates. -/
theorem C3_write_report_classification_witness :
    MouseProxy.write_report (WriteOutcome.osError 5) = Except.ok () ∧
    MouseProxy.write_report (WriteOutcome.osError 108) = Except.error 108 := by
  refine ⟨((C3_write_report_classification (WriteOutcome.osError 5) 108).2.2 (by decide)).1, ?_⟩
  exact ((C3_write_report_classification (WriteOutcome.osError 108) 108).1).mpr ⟨rfl, rfl⟩

/-- Claim C10: with the global remap toggle disabled, `remap` returns the
key's direct usage code from the usage table (0 when the key is absent), no
rewrite rule fires, and neither transient flag is set. -/
theorem C10_remap_disabled (s : KeyboardProxy.State) (k : String) :
    KeyboardProxy.remap s false k = (hidGet k, s) ∧
    (hidMem k = false → (KeyboardProxy.remap s false k).1 = 0) := by
  refine ⟨rfl, ?_⟩
  intro h
  have hl : List.lookup k hid_key_map = none := by
    cases hv : List.lookup k hid_key_map with
    | none => rfl
    | some v => simp [hidMem, hv] at h
  unfold remap
  simp [hidGet, hl]

/-- Witness for C10: a key absent from the usage table maps to 0, and a
present key keeps its direct usage code with the state untouched. -/
theorem C10_remap_disabled_witness :
    (KeyboardProxy.remap KeyboardProxy.reset_state false "KEY_FOO").1 = 0 ∧
    KeyboardProxy.remap KeyboardProxy.reset_state false "KEY_A" =
      (4, KeyboardProxy.reset_state) := by
  refine ⟨(C10_remap_disabled KeyboardProxy.reset_state "KEY_FOO").2 (by decide), ?_⟩
  have h := (C10_remap_disabled KeyboardProxy.reset_state "KEY_A").1
  simpa [hidGet, hid_key_map] using h

/-- Helper for the shift-held remap rules: with remapping enabled, a key in
the usage table other than the two brace keys, and a Shift bit held, `remap`
reduces to the shift-branch table. -/
theorem remap_shift_branch (s : KeyboardProxy.State) (h : s.modifier &&& shift_bit ≠ 0)
    (k : String) (hmem : hidMem k = true)
    (h1 : k ≠ "KEY_LEFTBRACE") (h2 : k ≠ "KEY_RIGHTBRACE") :
    remap s true k = shiftHeldRules s k := by
  unfold remap
  simp only [hmem, Bool.not_true, Bool.false_eq_true, if_false]
  rw [if_neg h1, if_neg h2, if_pos h]

/-- Claim C6: with remapping enabled, the unconditional rules
LEFTBRACE→RIGHTBRACE and RIGHTBRACE→BACKSLASH take precedence over the
Shift-conditional rules; with a Shift bit held the shift-set rules apply
(7→6, 8→APOSTROPHE, 9→8, 0→9, EQUAL→SEMICOLON, GRAVE→EQUAL, MINUS→RO,
BACKSLASH→YEN, APOSTROPHE→2, and 2→LEFTBRACE, 6→EQUAL, SEMICOLON→APOSTROPHE
with the shift-down transient); a key absent from the usage table remaps to
0; a key matching no rule passes through with its direct usage code. -/
theorem C6_remap_table (s : KeyboardProxy.State) :
    (remap s true "KEY_LEFTBRACE" = (hidGet "KEY_RIGHTBRACE", s) ∧
     remap s true "KEY_RIGHTBRACE" = (hidGet "KEY_BACKSLASH", s)) ∧
    (s.modifier &&& shift_bit ≠ 0 →
      remap s true "KEY_7" = (hidGet "KEY_6", s) ∧
      remap s true "KEY_8" = (hidGet "KEY_APOSTROPHE", s) ∧
      remap s true "KEY_9" = (hidGet "KEY_8", s) ∧
      remap s true "KEY_0" = (hidGet "KEY_9", s) ∧
      remap s true "KEY_EQUAL" = (hidGet "KEY_SEMICOLON", s) ∧
      remap s true "KEY_GRAVE" = (hidGet "KEY_EQUAL", s) ∧
      remap s true "KEY_MINUS" = (hidGet "KEY_RO", s) ∧
      remap s true "KEY_BACKSLASH" = (hidGet "KEY_YEN", s) ∧
      remap s true "KEY_APOSTROPHE" = (hidGet "KEY_2", s) ∧
      remap s true "KEY_2" = (hidGet "KEY_LEFTBRACE", {s with is_shift_down := true}) ∧
      remap s true "KEY_6" = (hidGet "KEY_EQUAL", {s with is_shift_down := true}) ∧
      remap s true "KEY_SEMICOLON" = (hidGet "KEY_APOSTROPHE", {s with is_shift_down := true})) ∧
    (∀ k, hidMem k = false → remap s true k = (0, s)) ∧
    (∀ k, hidMem k = true → k ∉ ruleKeys → remap s true k = (hidGet k, s)) := by
  refine ⟨⟨rfl, rfl⟩, ?_, ?_, ?_⟩
  · intro h
    refine ⟨?_, ?_, ?_, ?_, ?_, ?_, ?_, ?_, ?_, ?_, ?_, ?_⟩ <;>
      exact (remap_shift_branch s h _ (by decide) (by decide) (by decide)).trans rfl
  · intro k hk
    unfold remap
    simp [hk]
  · intro k hmem hnr
    unfold remap
    simp only [hmem, Bool.not_true, Bool.false_eq_true, if_false]
    rw [if_neg (by rintro rfl; exact hnr (by decide)),
        if_neg (by rintro rfl; exact hnr (by decide))]
    split_ifs with hs
    · unfold shiftHeldRules
      split <;> first | rfl | (exfalso; exact hnr (by decide))
    · unfold shiftFreeRules
      split <;> first | rfl | (exfalso; exact hnr (by decide))

/-- Witness for C6 at concrete inputs: with left Shift held, KEY_7 becomes
the usage of KEY_6; a key absent from the table gives 0; KEY_A passes
through as usage 4. -/
theorem C6_remap_table_witness :
    remap ⟨2, [], false, false⟩ true "KEY_7" = (35, ⟨2, [], false, false⟩) ∧
    remap ⟨2, [], false, false⟩ true "KEY_FOO" = (0, ⟨2, [], false, false⟩) ∧
    remap ⟨2, [], false, false⟩ true "KEY_A" = (4, ⟨2, [], false, false⟩) := by
  have h := C6_remap_table ⟨2, [], false, false⟩
  refine ⟨?_, ?_, ?_⟩
  · exact ((h.2.1 (by decide)).1).trans (by decide)
  · exact h.2.2.1 "KEY_FOO" (by decide)
  · exact (h.2.2.2 "KEY_A" (by decide) (by decide)).trans (by decide)

/-- Counterexample to claim C4: the code treats a modifier autorepeat
(keystate 2) as a press — on KEY_LEFTCTRL autorepeat from the reset state it
sets bit 0 of the modifier mask and emits a report, where the claim says
autorepeat is ignored with no state change and no report. -/
theorem C4_counterexample :
    (handle_event KeyboardProxy.reset_state true ⟨"KEY_LEFTCTRL", 2⟩).2.modifier = 1 ∧
    (handle_event KeyboardProxy.reset_state true ⟨"KEY_LEFTCTRL", 2⟩).1 =
      [Emission.report [1, 0, 0, 0, 0, 0, 0, 0]] := by
  decide

/-- Claim C4, amended: for an EV_KEY event on one of the eight modifier keys
(bits LCtrl=0, LShift=1, LAlt=2, LMeta=3, RCtrl=4, RShift=5, RAlt=6,
RMeta=7), keystate 0 clears the modifier's bit and any nonzero keystate
(press or autorepeat) sets it; a report is emitted after every modifier
event; the held-key set is untouched. -/
theorem C4_amended (s : KeyboardProxy.State) (en : Bool) (k : String) (ks b : Nat)
    (hb : List.lookup k modifiers_map = some b) :
    ((handle_event s en ⟨k, ks⟩).2.modifier =
       if ks = 0 then clearBits s.modifier (1 <<< b) else s.modifier ||| (1 <<< b)) ∧
    (handle_event s en ⟨k, ks⟩).1 ≠ [] ∧
    (handle_event s en ⟨k, ks⟩).2.pressed_keys = s.pressed_keys := by
  have hsome : (List.lookup k modifiers_map).isSome = true := by rw [hb]; rfl
  unfold handle_event
  rw [if_pos hsome]
  unfold update_modifier
  rw [hb]
  by_cases hks : ks = 0 <;>
    simp [hks, update_state_modifier, update_state_pressed, update_state_ne_nil]

/-- Witness for C4: pressing KEY_LEFTSHIFT from the reset state sets bit 1
and emits a report. -/
theorem C4_amended_witness :
    (handle_event KeyboardProxy.reset_state true ⟨"KEY_LEFTSHIFT", 1⟩).2.modifier = 2 ∧
    (handle_event KeyboardProxy.reset_state true ⟨"KEY_LEFTSHIFT", 1⟩).1 ≠ [] := by
  have h := C4_amended KeyboardProxy.reset_state true "KEY_LEFTSHIFT" 1 1 (by decide)
  exact ⟨h.1.trans (by decide), h.2.1⟩

/-- Counterexample to claim C5: with seven held keys whose first remaps to 0
(a key absent from the usage table), the code fills only five slots — the
zero code consumed one of the six truncation places — while the claim's
first-six-non-zero rule would fill all six (the seventh key's code 9 in the
last slot). -/
theorem C5_counterexample :
    (update_state ⟨0, ["KEY_FOO", "KEY_A", "KEY_B", "KEY_C", "KEY_D", "KEY_E", "KEY_F"],
        false, false⟩ true).1 =
      [Emission.report ([0, 0] ++ [4, 5, 6, 7, 8, 0])] ∧
    claimSlots (remappedCodes
        ⟨0, ["KEY_FOO", "KEY_A", "KEY_B", "KEY_C", "KEY_D", "KEY_E", "KEY_F"],
         false, false⟩ true) = [4, 5, 6, 7, 8, 9] ∧
    ([0, 0] ++ [4, 5, 6, 7, 8, 0] : List Nat) ≠ [0, 0] ++ [4, 5, 6, 7, 8, 9] := by
  refine ⟨by decide, by decide, by decide⟩

/-- Claim C5, amended: for every keyboard report emission the final report
is `[modifier, 0]` followed by exactly six slot bytes, which are the
non-zero values among the FIRST SIX remapped codes of the held keys in
iteration order, zero-padded: zero codes are skipped but still consume a
truncation place, and held keys beyond the sixth never contribute. -/
theorem C5_amended (s : KeyboardProxy.State) (en : Bool) :
    ∃ m, ((update_state s en).1).getLast? =
        some (Emission.report ([m, 0] ++ codeSlots (remappedCodes s en))) ∧
      (codeSlots (remappedCodes s en)).length = 6 := by
  have hlen : (codeSlots (remappedCodes s en)).length = 6 := by
    have h1 : (((remappedCodes s en).take 6).filter (fun c => c ≠ 0)).length ≤ 6 := by
      calc (((remappedCodes s en).take 6).filter (fun c => c ≠ 0)).length
        ≤ ((remappedCodes s en).take 6).length := List.length_filter_le _ _
        _ ≤ 6 := by simp [List.length_take_le]
    simp only [codeSlots, List.length_append, List.length_replicate]
    omega
  simp only [KeyboardProxy.update_state]
  split_ifs with h1 h2
  · exact ⟨_, rfl, hlen⟩
  · exact ⟨_, rfl, hlen⟩
  · exact ⟨_, rfl, hlen⟩

/-- Counterexample to claim C2: the mouse report buffer is
`bytearray(MouseIndex.MAX)` and `MouseIndex.MAX = 7` (the last member of
`range(8)`), so the emitted report has SEVEN bytes — there is no eighth
reserved zero byte.  On the spec's own S2 frame (REL_X=+5, REL_Y=-3) the
code emits `00 05 00 FD FF 00 00`, not an 8-byte report. -/
theorem C2_counterexample :
    (MouseProxy.update_state (applyRels MouseProxy.reset_state
        [⟨MouseProxy.REL_X, 5, 0⟩, ⟨MouseProxy.REL_Y, -3, 0⟩])).1 =
      [0, 5, 0, 253, 255, 0, 0] ∧
    (MouseProxy.update_state (applyRels MouseProxy.reset_state
        [⟨MouseProxy.REL_X, 5, 0⟩, ⟨MouseProxy.REL_Y, -3, 0⟩])).1.length ≠ 8 := by
  refine ⟨by decide, by decide⟩

/-- Claim C2, amended: within one SYN frame each EV_REL event OVERWRITES its
axis accumulator, and the report emitted at SYN_REPORT is the SEVEN bytes
[button mask, X low, X high, Y low, Y high, wheel low, wheel high], each
delta being the last per-axis EV_REL value (0 if none since the previous
report) in two's-complement 16-bit little-endian form; afterwards the three
accumulators are zero and the button mask is unchanged. -/
theorem C2_amended (s : MouseProxy.State) (hx : s.move_x = 0) (hy : s.move_y = 0)
    (hw : s.scroll_y = 0) (evs : List RelEvent) :
    (MouseProxy.update_state (applyRels s evs)).1 =
      [s.btn,
       lowByte (lastRelValue evs MouseProxy.REL_X), highByte (lastRelValue evs MouseProxy.REL_X),
       lowByte (lastRelValue evs MouseProxy.REL_Y), highByte (lastRelValue evs MouseProxy.REL_Y),
       lowByte (lastRelValue evs MouseProxy.REL_WHEEL),
       highByte (lastRelValue evs MouseProxy.REL_WHEEL)] ∧
    (MouseProxy.update_state (applyRels s evs)).1.length = 7 ∧
    (MouseProxy.update_state (applyRels s evs)).2.move_x = 0 ∧
    (MouseProxy.update_state (applyRels s evs)).2.move_y = 0 ∧
    (MouseProxy.update_state (applyRels s evs)).2.scroll_y = 0 ∧
    (MouseProxy.update_state (applyRels s evs)).2.btn = s.btn := by
  refine ⟨?_, rfl, rfl, rfl, rfl, ?_⟩
  · show [(applyRels s evs).btn, lowByte (applyRels s evs).move_x, highByte (applyRels s evs).move_x,
      lowByte (applyRels s evs).move_y, highByte (applyRels s evs).move_y,
      lowByte (applyRels s evs).scroll_y, highByte (applyRels s evs).scroll_y] = _
    rw [applyRels_btn, applyRels_last_x evs s hx, applyRels_last_y evs s hy,
        applyRels_last_w evs s hw]
  · show (applyRels s evs).btn = s.btn
    exact applyRels_btn evs s

/-- Witness for C2 on the spec's S2 frame from the reset state. -/
theorem C2_amended_witness :
    (MouseProxy.update_state (applyRels MouseProxy.reset_state
        [⟨MouseProxy.REL_X, 2, 0⟩, ⟨MouseProxy.REL_X, 5, 0⟩, ⟨MouseProxy.REL_Y, -3, 0⟩])).1 =
      [0, 5, 0, 253, 255, 0, 0] := by
  exact ((C2_amended MouseProxy.reset_state rfl rfl rfl
    [⟨MouseProxy.REL_X, 2, 0⟩, ⟨MouseProxy.REL_X, 5, 0⟩, ⟨MouseProxy.REL_Y, -3, 0⟩]).1).trans
    (by decide)

/-- Counterexample to claim C1: the code computes `is_press = (value == 1)`,
so a BTN_LEFT autorepeat event (value 2) is treated as a RELEASE and clears
bit 0, where the claim says value 2 leaves the mask unchanged.  Press at
t=0 s sets the bit; the value-2 event at t=1 s (outside every debounce and
drag window) clears it. -/
theorem C1_counterexample :
    (MouseProxy.handle_key_event MouseProxy.reset_state MouseProxy.BTN_LEFT 1 0).btn = 1 ∧
    (MouseProxy.handle_key_event (MouseProxy.handle_key_event MouseProxy.reset_state
        MouseProxy.BTN_LEFT 1 0) MouseProxy.BTN_LEFT 2 1).btn = 0 := by
  constructor <;>
    norm_num [MouseProxy.handle_key_event, MouseProxy.debounceHit, MouseProxy.dragStage,
      MouseProxy.applyButtons, MouseProxy.reset_state, setA, getA, List.lookup]

/-- Claim C1, amended: for an EV_KEY event that is not dropped by the
debounce filter (same code, same press state within 10 ms) nor by the
drag stabilisation (a BTN_LEFT non-press during drag mode within 50 ms of
the last movement), value 1 sets the recognised button's bit
(BTN_LEFT→bit0, BTN_RIGHT→bit1, BTN_MIDDLE→bit2, BTN_SIDE→bit3,
BTN_EXTRA→bit4) and ANY other value — release 0 or autorepeat 2 — clears
it; an event with an unrecognised button code leaves the button mask
unchanged (though it still updates the debounce buffer). -/
theorem C1_amended (s : MouseProxy.State) (code : Nat) (value : Int) (t : ℚ)
    (hdeb : ¬ MouseProxy.debounceHit s.button_debounce_buffer code (value == 1) t)
    (hdrag : code = MouseProxy.BTN_LEFT → (value == 1) = false → s.drag_mode = true →
      ¬ t - s.last_movement_time < 5/100)
    (hbtn : s.btn = s.button_left ||| s.button_right ||| s.button_center |||
      s.back ||| s.forward) :
    (MouseProxy.handle_key_event s code value t).btn =
      ((if code = MouseProxy.BTN_LEFT then (if value = 1 then 1 else 0) else s.button_left) |||
       (if code = MouseProxy.BTN_RIGHT then (if value = 1 then 2 else 0) else s.button_right) |||
       (if code = MouseProxy.BTN_MIDDLE then (if value = 1 then 4 else 0) else s.button_center) |||
       (if code = MouseProxy.BTN_SIDE then (if value = 1 then 8 else 0) else s.back) |||
       (if code = MouseProxy.BTN_EXTRA then (if value = 1 then 16 else 0) else s.forward)) ∧
    (code ∉ [MouseProxy.BTN_LEFT, MouseProxy.BTN_RIGHT, MouseProxy.BTN_MIDDLE,
        MouseProxy.BTN_SIDE, MouseProxy.BTN_EXTRA] →
      (MouseProxy.handle_key_event s code value t).btn = s.btn) := by
  have he := MouseProxy.handle_key_event_not_suppressed s code value t hdeb hdrag
  have hf := MouseProxy.dragStage_fields {s with button_debounce_buffer := setA s.button_debounce_buffer code (t, value == 1)} code (value == 1) t
  constructor
  · rw [he, MouseProxy.applyButtons_btn, hf.1, hf.2.1, hf.2.2.1, hf.2.2.2.1, hf.2.2.2.2.1]
    simp only [beq_iff_eq]
  · intro hmem
    have h1 : code ≠ MouseProxy.BTN_LEFT := fun h => hmem (by simp [h])
    have h2 : code ≠ MouseProxy.BTN_RIGHT := fun h => hmem (by simp [h])
    have h3 : code ≠ MouseProxy.BTN_MIDDLE := fun h => hmem (by simp [h])
    have h4 : code ≠ MouseProxy.BTN_SIDE := fun h => hmem (by simp [h])
    have h5 : code ≠ MouseProxy.BTN_EXTRA := fun h => hmem (by simp [h])
    rw [he, MouseProxy.applyButtons_btn, hf.1, hf.2.1, hf.2.2.1, hf.2.2.2.1, hf.2.2.2.2.1,
        if_neg h1, if_neg h2, if_neg h3, if_neg h4, if_neg h5, hbtn]

/-- Witness for C1 at a concrete input: a BTN_RIGHT press from the reset
state (no debounce entry, no drag mode) sets bit 1. -/
theorem C1_amended_witness :
    (MouseProxy.handle_key_event MouseProxy.reset_state MouseProxy.BTN_RIGHT 1 0).btn = 2 := by
  have h := (C1_amended MouseProxy.reset_state MouseProxy.BTN_RIGHT 1 0
    (by simp [MouseProxy.debounceHit, MouseProxy.reset_state, List.lookup])
    (fun hc => absurd hc (by decide)) rfl).1
  rw [h]
  decide

/-- Claim C7: when no Shift bit is held, remapping is enabled, and a held
key's remap rule sets the shift-up transient (APOSTROPHE→7, GRAVE→LEFTBRACE,
EQUAL→MINUS), the emission is exactly two reports in order: the intermediate
`02 00 00 00 00 00 00 00` (left-shift only, zero key slots), a ~10 ms
(`0.01` s) pause, then the final report whose byte 0 has left-shift forced
on and whose key slots hold the remapped usage codes. -/
theorem C7_shift_up_synthesis (s : KeyboardProxy.State)
    (hm : s.modifier &&& shift_bit = 0) (k : String) (hk : k ∈ s.pressed_keys)
    (ht : k = "KEY_APOSTROPHE" ∨ k = "KEY_GRAVE" ∨ k = "KEY_EQUAL") :
    (KeyboardProxy.update_state s true).1 =
      [Emission.report [2, 0, 0, 0, 0, 0, 0, 0], Emission.sleep (1/100),
       Emission.report ([s.modifier ||| 2, 0] ++ codeSlots (remappedCodes s true))] := by
  have hup : (remapList true {s with is_shift_up := false, is_shift_down := false}
      {s with is_shift_up := false, is_shift_down := false}.pressed_keys).2.is_shift_up = true :=
    remapList_shift_up_of_mem _ _ (by simpa using hm) k (by simpa using hk) ht
  simp only [KeyboardProxy.update_state]
  rw [if_pos hup]
  simp [remapList_modifier_eq, codeSlots, remappedCodes]

/-- Witness for C7: the spec's S5 scenario — KEY_APOSTROPHE held with no
modifiers gives the left-shift-only report, the 10 ms pause, then
`02 00 24 ...` (0x24 = 36, the usage of KEY_7). -/
theorem C7_shift_up_synthesis_witness :
    (KeyboardProxy.update_state ⟨0, ["KEY_APOSTROPHE"], false, false⟩ true).1 =
      [Emission.report [2, 0, 0, 0, 0, 0, 0, 0], Emission.sleep (1/100),
       Emission.report [2, 0, 36, 0, 0, 0, 0, 0]] := by
  have hcs : codeSlots (remappedCodes ⟨0, ["KEY_APOSTROPHE"], false, false⟩ true) =
      [36, 0, 0, 0, 0, 0] := by decide
  rw [C7_shift_up_synthesis ⟨0, ["KEY_APOSTROPHE"], false, false⟩ (by decide)
    "KEY_APOSTROPHE" (by decide) (Or.inl rfl), hcs]
  simp

/-- Claim C8: across any sequence of supervisor actions (reap, assign on
device arrival, cancel-and-release on device removal) the pool invariant is
preserved — free and assigned endpoints stay pairwise distinct (no endpoint
both free and assigned, none assigned to two sessions) and together they
are exactly the fixed pool — and |free| + |assigned sessions| equals the
pool size. -/
theorem C8_endpoint_pool_invariant (pool : Multiset String) (st : Supervisor.PoolState)
    (steps : List Supervisor.Step) (h : Supervisor.Inv pool st) :
    Supervisor.Inv pool (Supervisor.applySteps st steps) ∧
    (Supervisor.applySteps st steps).available.length +
      (Supervisor.applySteps st steps).managed.length = Multiset.card pool := by
  have hinv : Supervisor.Inv pool (Supervisor.applySteps st steps) := by
    induction steps generalizing st with
    | nil => exact h
    | cons e es ih => exact ih (Supervisor.applyStep st e) (Supervisor.applyStep_inv pool st e h)
  refine ⟨hinv, ?_⟩
  have hms := hinv.2.1
  have hcard : Multiset.card pool =
      (Supervisor.applySteps st steps).available.length +
        (Supervisor.assigned (Supervisor.applySteps st steps)).length := by
    rw [← hms]
    simp
  simpa [Supervisor.assigned] using hcard.symm

/-- Witness for C8: a two-endpoint mouse pool through connect, connect,
disconnect, reap keeps |free| + |assigned| = 2. -/
theorem C8_endpoint_pool_invariant_witness :
    (Supervisor.applySteps ⟨["h1", "h2"], []⟩ [Supervisor.Step.connect "d1",
        Supervisor.Step.connect "d2", Supervisor.Step.disconnect "d1",
        Supervisor.Step.reap "d2"]).available.length +
      (Supervisor.applySteps ⟨["h1", "h2"], []⟩ [Supervisor.Step.connect "d1",
        Supervisor.Step.connect "d2", Supervisor.Step.disconnect "d1",
        Supervisor.Step.reap "d2"]).managed.length =
      Multiset.card (↑["h1", "h2"] : Multiset String) :=
  (C8_endpoint_pool_invariant _ _ _ ⟨by decide, rfl, by decide⟩).2

/-- Counterexample to claim C9: the very first report of a balanced
non-modifier sequence is NOT all-zero — pressing KEY_A (then releasing it)
makes the first report carry usage 4 — so the report sequence does not
BEGIN with the all-zero report. -/
theorem C9_counterexample :
    BalancedP [⟨"KEY_A", 1⟩, ⟨"KEY_A", 0⟩] ∧
    (∀ e ∈ [(⟨"KEY_A", 1⟩ : KeyboardProxy.Event), ⟨"KEY_A", 0⟩],
      List.lookup e.keycode modifiers_map = none) ∧
    (keyReports (processEvents true KeyboardProxy.reset_state
        [⟨"KEY_A", 1⟩, ⟨"KEY_A", 0⟩]).1).head? = some [0, 0, 4, 0, 0, 0, 0, 0] ∧
    ([0, 0, 4, 0, 0, 0, 0, 0] : List Nat) ≠ zeroReport := by
  refine ⟨balancedB_sound _ (by decide), by decide, by decide, by decide⟩

/-- Claim C9, amended: for every finite keyboard event sequence in which
every press has a matching later release and no modifier events occur,
starting from the empty translator state, the report sequence — whenever at
least one report is emitted — ENDS with the all-zero 8-byte report (it does
not in general begin with it). -/
theorem C9_amended (en : Bool) (evs : List KeyboardProxy.Event) (hb : BalancedP evs)
    (hmod : ∀ e ∈ evs, List.lookup e.keycode modifiers_map = none)
    (hne : keyReports (processEvents en KeyboardProxy.reset_state evs).1 ≠ []) :
    (keyReports (processEvents en KeyboardProxy.reset_state evs).1).getLast? =
      some zeroReport := by
  rcases processEvents_last en evs KeyboardProxy.reset_state hmod with ⟨hnil, -⟩ | hlast
  · exact absurd (by rw [hnil]; rfl) hne
  · rw [hlast]
    have hm0 : (processEvents en KeyboardProxy.reset_state evs).2.modifier = 0 :=
      processEvents_modifier en evs KeyboardProxy.reset_state hmod
    have hp0 : (processEvents en KeyboardProxy.reset_state evs).2.pressed_keys = [] := by
      rw [processEvents_pressed]
      exact foldl_stepPressed_empty evs [] (by simp) List.nodup_nil hb
    rw [hm0, hp0]
    rfl

/-- Witness for C9 on the concrete sequence press-A, release-A. -/
theorem C9_amended_witness :
    (keyReports (processEvents true KeyboardProxy.reset_state
        [⟨"KEY_A", 1⟩, ⟨"KEY_A", 0⟩]).1).getLast? = some zeroReport :=
  C9_amended true [⟨"KEY_A", 1⟩, ⟨"KEY_A", 0⟩] (balancedB_sound _ (by decide))
    (by decide) (by decide)

end MultiDeviceProxy
